import Mathlib

/-!
# debos (yaib): a shallow embedding of the build orchestrator

The Go sources embedded here are `yaib.go` (file copy, tree overlay, the qemu
helper, the chroot runner, action dispatch and `main`) and
`ostree_deploy_action.go` (the deploy action).  Go strings are Lean strings,
`os.FileMode` values are natural numbers, a Go `error` result is an
`Option Error` (`none` is `nil`), and a Go panic is an explicit result.

The file system is a finite map from cleaned absolute paths to entries.  The
file-system calls take an explicit fault parameter, so each of them can fail
independently of the file-system state, besides the failures the state itself
causes (a missing file, an existing directory, a directory that is not
empty).
-/

namespace Debos

/-! ## Go standard library: `strings`, `path`, `path/filepath` -/

/-- Pieces of a character list between the characters that satisfy `p`:
`n` such characters give `n + 1` pieces, empty pieces included. -/
def splitWhere (p : Char → Bool) : List Char → List (List Char)
  | [] => [[]]
  | c :: t =>
    if p c then [] :: splitWhere p t
    else
      match splitWhere p t with
      | h :: r => (c :: h) :: r
      | [] => [[c]]

/-- Go `strings.Split` with a one-byte separator, on character lists. -/
def splitChars (sep : Char) (s : List Char) : List (List Char) :=
  splitWhere (fun c => c == sep) s

/-- Go `strings.Split(s, sep)` for a separator of one byte. -/
def stringsSplit (s : String) (sep : Char) : List String :=
  (splitChars sep s.data).map String.mk

/-- The inner loop of the `..` case of Go `path.Clean`: starting from write
index `w`, step back while `w > dotdot` and `out[w]` is not a slash. -/
def backtrack (out : List Char) (dotdot : Nat) : Nat → Nat
  | 0 => 0
  | w + 1 =>
    if dotdot < w + 1 ∧ out.getD (w + 1) '/' ≠ '/' then backtrack out dotdot w
    else w + 1

/-- The main loop of Go `path.Clean`.  The list argument is the unread part
`path[r:]`, `out` is the write buffer and `dotdot` the index below which the
buffer may not be cut.  The Boolean is `true` while the loop copies the
characters of a real path element (the inner `for` of the default case). -/
def cleanLoop (rooted : Bool) : Bool → List Char → List Char → Nat → List Char
  | _, [], out, _ => out
  | true, c :: t, out, dotdot =>
    if c = '/' then cleanLoop rooted false t out dotdot
    else cleanLoop rooted true t (out ++ [c]) dotdot
  | false, c :: t, out, dotdot =>
    let element :=
      cleanLoop rooted true t
        ((if (rooted && out.length != 1) || (!rooted && out.length != 0)
          then out ++ ['/'] else out) ++ [c]) dotdot
    if c = '/' then cleanLoop rooted false t out dotdot
    else if c = '.' ∧ (t = [] ∨ t.head? = some '/') then
      cleanLoop rooted false t out dotdot
    else
      match t with
      | [] => element
      | c2 :: t2 =>
        if c = '.' ∧ c2 = '.' ∧ (t2 = [] ∨ t2.head? = some '/') then
          if dotdot < out.length then
            cleanLoop rooted false t2
              (out.take (backtrack out dotdot (out.length - 1))) dotdot
          else if !rooted then
            cleanLoop rooted false t2
              ((if 0 < out.length then out ++ ['/'] else out) ++ ['.', '.'])
              ((if 0 < out.length then out ++ ['/'] else out) ++ ['.', '.']).length
          else cleanLoop rooted false t2 out dotdot
        else element

/-- Go `path.Clean` on a character list. -/
def cleanChars (p : List Char) : List Char :=
  match p with
  | [] => ['.']
  | c :: t =>
    let out :=
      if c = '/' then cleanLoop true false t ['/'] 1
      else cleanLoop false false (c :: t) [] 0
    if out.length = 0 then ['.'] else out

/-- Go `path.Clean` (and `filepath.Clean` on Unix). -/
def pathClean (p : String) : String := String.mk (cleanChars p.data)

/-- Go `strings.Join` with a one-byte separator, on character lists. -/
def joinChars (sep : Char) : List (List Char) → List Char
  | [] => []
  | [e] => e
  | e :: f :: r => e ++ sep :: joinChars sep (f :: r)

/-- Go `path.Join` (and `filepath.Join` on Unix): the elements from the first
non-empty one on are joined with slashes and the result is cleaned; an
all-empty argument list gives the empty string. -/
def pathJoin (elem : List String) : String :=
  match elem.dropWhile (fun e => e == "") with
  | [] => ""
  | rest => String.mk (cleanChars (joinChars '/' (rest.map String.data)))

/-- Go `filepath.Dir` on Unix: everything up to the last slash, cleaned. -/
def filepathDir (p : String) : String :=
  String.mk (cleanChars (p.data.reverse.dropWhile (fun c => c != '/')).reverse)

/-- Go `os.FileMode.Perm`: the nine Unix permission bits, `m & 0777`. -/
def Perm (m : Nat) : Nat := m % 512

/-- Go `os.ModeDir`, bit 31 of a file mode. -/
def ModeDir : Nat := 2 ^ 31

/-- Go `os.ModeType`: the mask of the bits that mark a non-regular file
(directory, symlink, named pipe, socket, device, char device, irregular). -/
def ModeType : Nat := 2 ^ 31 + 2 ^ 27 + 2 ^ 26 + 2 ^ 25 + 2 ^ 24 + 2 ^ 21 + 2 ^ 19

/-- Go `os.FileMode.IsDir`. -/
def IsDir (m : Nat) : Bool := m &&& ModeDir != 0

/-- Go `os.FileMode.IsRegular`. -/
def IsRegular (m : Nat) : Bool := m &&& ModeType == 0

/-! ## Errors, panics and the file system -/

/-- A Go `error` value.  `exist` is the error `os.IsExist` recognises. -/
inductive Error where
  | exist
  | notExist
  | isDirectory
  | notDirectory
  | notEmpty
  | msg (text : String)
  deriving DecidableEq, Repr

/-- Go `os.IsExist`. -/
def osIsExist (e : Error) : Bool := e == Error.exist

/-- Text of an error, as the `%v` verb prints it. -/
def Error.text : Error → String
  | .exist => "file exists"
  | .notExist => "no such file or directory"
  | .isDirectory => "is a directory"
  | .notDirectory => "not a directory"
  | .notEmpty => "directory not empty"
  | .msg t => t

/-- A Go panic, by the place that raises it. -/
inductive Panic where
  | notHandled
  | unknownQemuArchitecture (arch : String)
  | unknownAction (name : String)
  deriving DecidableEq, Repr

/-- What a path holds: a regular file with content and permission bits, or a
directory with permission bits. -/
inductive Entry where
  | file (content : String) (perm : Nat)
  | dir (perm : Nat)
  deriving DecidableEq, Repr

/-- A file-system state: the entries it holds, by cleaned absolute path. -/
structure FS where
  entries : List (String × Entry)

/-- What the path `p` holds, `none` when it does not exist. -/
def fsGet (fs : FS) (p : String) : Option Entry :=
  (fs.entries.find? (fun x => x.1 == p)).map Prod.snd

instance : CoeFun FS (fun _ => String → Option Entry) := ⟨fsGet⟩

/-- The state with nothing at `p`. -/
def fsErase (fs : FS) (p : String) : FS :=
  { entries := fs.entries.filter (fun x => x.1 != p) }

/-- The state with `p` holding `e`. -/
def fsSet (fs : FS) (p : String) (e : Entry) : FS :=
  { entries := (p, e) :: (fsErase fs p).entries }

/-- Whether the path `q` lies inside the directory `p`. -/
def fsInside (p q : String) : Bool :=
  (if p.data.getLast? = some '/' then p.data else p.data ++ ['/']).isPrefixOf q.data
    && q != p

/-- Whether `p` holds a directory. -/
def fsIsDir (fs : FS) (p : String) : Bool :=
  match fs p with
  | some (Entry.dir _) => true
  | _ => false

/-- Go `os.Remove(p)`: `fault` is an injected failure (an entry the process
may not remove); otherwise it fails when `p` holds nothing or holds a
directory that is not empty, and else removes the entry. -/
def osRemove (fault : Option Error) (p : String) (fs : FS) : FS × Option Error :=
  match fault with
  | some e => (fs, some e)
  | none =>
    match fs p with
    | none => (fs, some Error.notExist)
    | some (Entry.file _ _) => (fsErase fs p, none)
    | some (Entry.dir _) =>
      if fs.entries.any (fun x => fsInside p x.1) then (fs, some Error.notEmpty)
      else (fsErase fs p, none)

/-- Go `os.Mkdir(p, mode)`: `fault` is an injected failure; otherwise it fails
when `p` exists or its parent is not a directory, and else creates the
directory with the permission bits of `mode`. -/
def osMkdir (fault : Option Error) (p : String) (mode : Nat) (fs : FS) :
    FS × Option Error :=
  match fault with
  | some e => (fs, some e)
  | none =>
    if (fs p).isSome then (fs, some Error.exist)
    else if !fsIsDir fs (filepathDir p) then (fs, some Error.notExist)
    else (fsSet fs p (Entry.dir (Perm mode)), none)

/-- The injected outcome of each call `CopyFile` makes (`none`: the call is
not made to fail), the name `ioutil.TempFile` picks, and what `io.Copy` had
written when it failed.  `removeErr` is the outcome of the `os.Remove` of the
temporary file on the error paths, whose result `CopyFile` drops. -/
structure CopyFaults where
  openErr : Option Error
  tempErr : Option Error
  tempName : String
  copyErr : Option Error
  copied : String
  closeErr : Option Error
  chmodErr : Option Error
  renameErr : Option Error
  removeErr : Option Error

/-- The fault-free outcome with temporary name `name`. -/
def CopyFaults.ok (name : String) : CopyFaults :=
  { openErr := none, tempErr := none, tempName := name, copyErr := none,
    copied := "", closeErr := none, chmodErr := none, renameErr := none,
    removeErr := none }

/-- The path of the temporary file `CopyFile` creates for destination `dst`:
`ioutil.TempFile(filepath.Dir(dst), "")` joins the directory and the name. -/
def tempPath (o : CopyFaults) (dst : String) : String :=
  pathJoin [filepathDir dst, o.tempName]

/-- The tail of `CopyFile` once the temporary file `tmp` exists: `io.Copy`,
`Close`, `os.Chmod`, `os.Rename`.  `srcEntry` is what the opened source
holds. -/
def CopyFile.write (o : CopyFaults) (srcEntry : Entry) (tmp dst : String)
    (mode : Nat) (fs : FS) : FS × Option Error :=
  match o.copyErr, srcEntry with
  | some e, _ =>
    ((osRemove o.removeErr tmp (fsSet fs tmp (Entry.file o.copied 384))).1, some e)
  | none, Entry.dir _ => ((osRemove o.removeErr tmp fs).1, some Error.isDirectory)
  | none, Entry.file content _ =>
    let fs2 := fsSet fs tmp (Entry.file content 384)
    match o.closeErr with
    | some e => ((osRemove o.removeErr tmp fs2).1, some e)
    | none =>
      match o.chmodErr with
      | some e => ((osRemove o.removeErr tmp fs2).1, some e)
      | none =>
        let fs3 := fsSet fs2 tmp (Entry.file content (Perm mode))
        match o.renameErr with
        | some e => (fs3, some e)
        | none =>
          if fsIsDir fs3 dst then (fs3, some Error.isDirectory)
          else (fsSet (fsErase fs3 tmp) dst (Entry.file content (Perm mode)), none)

/-- Go `CopyFile(src, dst, mode)` of `yaib.go`. -/
def CopyFile (o : CopyFaults) (src dst : String) (mode : Nat) (fs : FS) :
    FS × Option Error :=
  match o.openErr with
  | some e => (fs, some e)
  | none =>
    match fs src with
    | none => (fs, some Error.notExist)
    | some srcEntry =>
      match o.tempErr with
      | some e => (fs, some e)
      | none =>
        if !fsIsDir fs (filepathDir dst) then (fs, some Error.notExist)
        else if (fs (tempPath o dst)).isSome then (fs, some Error.exist)
        else
          CopyFile.write o srcEntry (tempPath o dst) dst mode
            (fsSet fs (tempPath o dst) (Entry.file "" 384))

/-- The environment of a run: the injected faults of the file copies and
directory creations, by destination path, those of the removals
`QemuHelper.Cleanup` makes, by path, and the behaviour of external commands
(the new file-system state and the error `cmd.Wait` returns). -/
structure Env where
  copyFaults : String → CopyFaults
  mkdirFault : String → Option Error
  removeFault : String → Option Error
  exec : String → List String → FS → FS × Option Error

/-- One call of the walk function by `filepath.Walk`: the visited path, that
path relative to the walked root (what `filepath.Rel` returns), the mode of
its file info, and the error `Walk` passes. -/
structure WalkEntry where
  path : String
  suffix : String
  mode : Nat
  err : Option Error

/-- The closure `walker` of `CopyTree`. -/
def CopyTree.walker (env : Env) (desttree : String) (en : WalkEntry) (fs : FS) :
    FS × Except Panic (Option Error) :=
  match en.err with
  | some e => (fs, .ok (some e))
  | none =>
    let target := pathJoin [desttree, en.suffix]
    if IsDir en.mode then
      ((osMkdir (env.mkdirFault target) target en.mode fs).1, .ok none)
    else if IsRegular en.mode then
      ((CopyFile (env.copyFaults target) en.path target en.mode fs).1, .ok none)
    else (fs, .error Panic.notHandled)

/-- Go `filepath.Walk` on the sequence of entries it visits: the walk function
is called on each in turn and the walk stops at the first error it returns
(this walk function never returns `SkipDir`) or at a panic. -/
def filepathWalk (fn : WalkEntry → FS → FS × Except Panic (Option Error)) :
    List WalkEntry → FS → FS × Except Panic (Option Error)
  | [], fs => (fs, .ok none)
  | en :: rest, fs =>
    match fn en fs with
    | (fs1, .ok none) => filepathWalk fn rest fs1
    | r => r

/-- Go `CopyTree(sourcetree, desttree)` of `yaib.go`; `entries` is what the
walk of `sourcetree` visits.  The function has no result: what `filepath.Walk`
returns is dropped, only a panic escapes. -/
def CopyTree (env : Env) (entries : List WalkEntry) (desttree : String) (fs : FS) :
    FS × Except Panic Unit :=
  match filepathWalk (CopyTree.walker env desttree) entries fs with
  | (fs1, .ok _) => (fs1, .ok ())
  | (fs1, .error p) => (fs1, .error p)

/-! ## The qemu helper and the chroot runner -/

/-- Go `YaibContext`.  The first five fields are those of `yaib.go`; the
kernel root argument and the fstab buffer are the further context fields
`ostree_deploy_action.go` reads. -/
structure YaibContext where
  rootdir : String
  artifactdir : String
  image : String
  imageMntDir : String
  Architecture : String
  imageKernelRoot : String
  imageFSTab : String

/-- Go `QemuHelper`. -/
structure QemuHelper where
  qemusrc : String
  qemutarget : String
  deriving DecidableEq, Repr

/-- The `switch` of `NewQemuHelper`: the interpreter of an architecture, or
the panic of the default case. -/
def qemuSource (arch : String) : Except Panic String :=
  if arch = "armhf" ∨ arch = "armel" ∨ arch = "arm" then .ok "/usr/bin/qemu-arm-static"
  else if arch = "arm64" then .ok "/usr/bin/qemu-aarch64-static"
  else if arch = "amd64" then .ok ""
  else .error (Panic.unknownQemuArchitecture arch)

/-- Go `NewQemuHelper`. -/
def NewQemuHelper (context : YaibContext) : Except Panic QemuHelper :=
  match qemuSource context.Architecture with
  | .error p => .error p
  | .ok src =>
    .ok { qemusrc := src,
          qemutarget := if src ≠ "" then pathJoin [context.rootdir, src] else "" }

/-- The mode `QemuHelper.Setup` hands to `CopyFile`: the Go literal `755`. -/
def QemuHelper.setupMode : Nat := 755

/-- Go `QemuHelper.Setup`. -/
def QemuHelper.Setup (env : Env) (q : QemuHelper) (fs : FS) : FS × Option Error :=
  if q.qemusrc = "" then (fs, none)
  else CopyFile (env.copyFaults q.qemutarget) q.qemusrc q.qemutarget QemuHelper.setupMode fs

/-- Go `QemuHelper.Cleanup`: the error of `os.Remove` is dropped. -/
def QemuHelper.Cleanup (env : Env) (q : QemuHelper) (fs : FS) : FS :=
  if q.qemusrc ≠ "" then (osRemove (env.removeFault q.qemutarget) q.qemutarget fs).1
  else fs

/-- The file system together with the record of the external commands run. -/
structure World where
  fs : FS
  cmds : List (String × List String)

/-- Go `RunCommand`: runs the command, drains its output (the label only tags
the printed lines) and returns what `cmd.Wait` returns. -/
def RunCommand (env : Env) (_label command : String) (arg : List String) (w : World) :
    World × Option Error :=
  ({ fs := (env.exec command arg w.fs).1, cmds := w.cmds ++ [(command, arg)] },
   (env.exec command arg w.fs).2)

/-- Go `RunCommandInChroot`: the result of `q.Setup()` is dropped, and
`q.Cleanup()` is deferred, so it runs after `RunCommand` returned. -/
def RunCommandInChroot (env : Env) (context : YaibContext) (label command : String)
    (arg : List String) (w : World) : World × Except Panic (Option Error) :=
  let options := ["-D", context.rootdir, command] ++ arg
  match NewQemuHelper context with
  | .error p => (w, .error p)
  | .ok q =>
    let w1 : World := { w with fs := (q.Setup env w.fs).1 }
    let r := RunCommand env label "systemd-nspawn" options w1
    ({ r.1 with fs := q.Cleanup env r.1.fs }, .ok r.2)

/-! ## The ostree deploy action -/

/-- Go `OstreeDeployAction` (the fields the recipe sets). -/
structure OstreeDeployAction where
  Repository : String
  RemoteRepository : String
  Branch : String
  Os : String
  SetupFSTab : Bool
  SetupKernelCmdline : Bool
  AppendKernelCmdline : String

/-- What the action reads of an `ostree.Deployment`. -/
structure Deployment where
  Osname : String
  Csum : String
  Deployserial : Nat
  deriving DecidableEq, Repr

/-- The calls `OstreeDeployAction.Run` makes, with their arguments. -/
inductive Call where
  | Command (label command : String) (arg : List String)
  | InitializeFS (sysroot : String)
  | InitOsname (os : String)
  | OpenRepo (path : String)
  | RemoteAdd (name url : String) (noGpgVerify : Bool)
  | PullWithOptions (repoPath remote : String) (refs : List String)
  | Load
  | ResolveRev (branch : String) (allowNoent : Bool)
  | DeployTree (os revision origin : String) (kargs : List String)
  | Mkdir (path : String) (mode : Nat)
  | OpenFile (path : String)
  | Copy (path content : String)
  | SimpleWriteDeployment (os : String) (deployment : Deployment)
  deriving DecidableEq, Repr

/-- What each call of `OstreeDeployAction.Run` returns: `none` is success,
`ResolveRev` and `DeployTree` return a value on success. -/
structure StoreOutcomes where
  cp : Option Error
  InitializeFS : Option Error
  InitOsname : Option Error
  OpenRepo : Option Error
  RemoteAdd : Option Error
  PullWithOptions : Option Error
  Load : Option Error
  ResolveRev : Except Error String
  DeployTree : Except Error Deployment
  Mkdir : Option Error
  OpenFile : Option Error
  Copy : Option Error
  SimpleWriteDeployment : Option Error

/-- The state the deploy action works on: the build context, the record of
the calls made, and the active deployment of each os-name in the store. -/
structure DeployState where
  context : YaibContext
  calls : List Call
  active : String → Option Deployment

/-- The state after a further call. -/
def DeployState.call (st : DeployState) (c : Call) : DeployState :=
  { st with calls := st.calls ++ [c] }

/-- Lines 107 to 115 of `ostree_deploy_action.go`: the kernel arguments handed
to `DeployTree`. -/
def OstreeDeployAction.kargs (ot : OstreeDeployAction) (context : YaibContext) :
    List String :=
  let kargs : List String := if ot.SetupKernelCmdline then [context.imageKernelRoot] else []
  if ot.AppendKernelCmdline ≠ "" then kargs ++ stringsSplit ot.AppendKernelCmdline ' '
  else kargs

/-- Go `OstreeDeployAction.setupFSTab`. -/
def OstreeDeployAction.setupFSTab (o : StoreOutcomes) (deployment : Deployment)
    (st : DeployState) : DeployState × Option Error :=
  let deploymentDir := "ostree/deploy/" ++ deployment.Osname ++ "/deploy/" ++
    deployment.Csum ++ "." ++ toString deployment.Deployserial
  let etcDir := pathJoin [st.context.imageMntDir, deploymentDir, "etc"]
  let st := st.call (Call.Mkdir etcDir 755)
  match o.Mkdir.filter (fun e => !osIsExist e) with
  | some err => (st, some err)
  | none =>
    let st := st.call (Call.OpenFile (pathJoin [etcDir, "fstab"]))
    match o.OpenFile with
    | some err => (st, some err)
    | none =>
      let st := st.call (Call.Copy (pathJoin [etcDir, "fstab"]) st.context.imageFSTab)
      match o.Copy with
      | some err => (st, some err)
      | none => ({ st with context := { st.context with imageFSTab := "" } }, none)

/-- The end of `OstreeDeployAction.Run`, from line 123 on: the fstab and the
switch to the new deployment. -/
def OstreeDeployAction.finish (o : StoreOutcomes) (ot : OstreeDeployAction)
    (deployment : Deployment) (st : DeployState) : DeployState × Option Error :=
  let r : DeployState × Option Error :=
    if ot.SetupFSTab then OstreeDeployAction.setupFSTab o deployment st else (st, none)
  match r.2 with
  | some err => (r.1, some err)
  | none =>
    let st := r.1.call (Call.SimpleWriteDeployment ot.Os deployment)
    match o.SimpleWriteDeployment with
    | some err => (st, some err)
    | none =>
      ({ st with active := fun os => if os = ot.Os then some deployment else st.active os },
       none)

/-- Go `OstreeDeployAction.Run`.  The value `sysroot.Load` returns is not
looked at. -/
def OstreeDeployAction.Run (o : StoreOutcomes) (ot : OstreeDeployAction)
    (st : DeployState) : DeployState × Option Error :=
  let st := st.call (Call.Command "Deploy to image" "cp"
    ["-a", st.context.rootdir ++ "/.", st.context.imageMntDir])
  match o.cp with
  | some err => (st, some (Error.msg ("rootfs deploy failed: " ++ err.text)))
  | none =>
  let st := { st with context := { st.context with rootdir := st.context.imageMntDir } }
  let repoPath := "file://" ++ pathJoin [st.context.artifactdir, ot.Repository]
  let st := st.call (Call.InitializeFS st.context.imageMntDir)
  match o.InitializeFS with
  | some err => (st, some err)
  | none =>
  let st := st.call (Call.InitOsname ot.Os)
  match o.InitOsname with
  | some err => (st, some err)
  | none =>
  let st := st.call (Call.OpenRepo (pathJoin [st.context.imageMntDir, "ostree/repo"]))
  match o.OpenRepo with
  | some err => (st, some err)
  | none =>
  let st := st.call (Call.RemoteAdd "origin" ot.RemoteRepository true)
  match o.RemoteAdd with
  | some err => (st, some err)
  | none =>
  let st := st.call (Call.PullWithOptions repoPath "origin" [ot.Branch])
  match o.PullWithOptions with
  | some err => (st, some err)
  | none =>
  let st := st.call Call.Load
  let st := st.call (Call.ResolveRev ot.Branch false)
  match o.ResolveRev with
  | .error err => (st, some err)
  | .ok revision =>
  let st := st.call (Call.DeployTree ot.Os revision ("origin:" ++ ot.Branch)
    (ot.kargs st.context))
  match o.DeployTree with
  | .error err => (st, some err)
  | .ok deployment => OstreeDeployAction.finish o ot deployment st

/-! ## Action dispatch and `main` -/

/-- The concrete action types of the repository.  The first seven are those
`YamlAction.UnmarshalYAML` constructs; the two ostree actions are declared in
`ostree_commit_action.go` and `ostree_deploy_action.go`. -/
inductive Action where
  | DebootstrapAction
  | PackAction
  | UnpackAction
  | RunAction
  | OverlayAction
  | SetupImage
  | DeployImageAction
  | OstreeCommitAction
  | OstreeDeployAction
  deriving DecidableEq, Repr

/-- The `switch` of `YamlAction.UnmarshalYAML`: the action a discriminator
selects, `none` for the default case. -/
def selectAction (name : String) : Option Action :=
  if name = "debootstrap" then some Action.DebootstrapAction
  else if name = "pack" then some Action.PackAction
  else if name = "unpack" then some Action.UnpackAction
  else if name = "run" then some Action.RunAction
  else if name = "overlay" then some Action.OverlayAction
  else if name = "setup-image" then some Action.SetupImage
  else if name = "deploy-image" then some Action.DeployImageAction
  else none

/-- Go `YamlAction.UnmarshalYAML`.  `aux` is what `unmarshal(&aux)` gives: an
error, or the value of the `action` field; `y` is the embedded `Action` of the
receiver before the call.  The result is the embedded `Action` after the call
and the returned error, or a panic.  The closing `unmarshal(y.Action)` fills
the fields of the selected action, which are not part of the model, and its
result is dropped. -/
def UnmarshalYAML (aux : Except Error String) (y : Option Action) :
    Except Panic (Option Action × Option Error) :=
  match aux with
  | .error err => .ok (y, some err)
  | .ok name =>
    match selectAction name with
    | some a => .ok (some a, none)
    | none => .error (Panic.unknownAction name)

/-- The action kind a discriminator names in the recipe format, as the
specification lists them: unpack, overlay, run, ostree-commit, ostree-deploy,
pack, debootstrap, setup-image, deploy-image. -/
def recipeActionKind (name : String) : Option Action :=
  if name = "unpack" then some Action.UnpackAction
  else if name = "overlay" then some Action.OverlayAction
  else if name = "run" then some Action.RunAction
  else if name = "ostree-commit" then some Action.OstreeCommitAction
  else if name = "ostree-deploy" then some Action.OstreeDeployAction
  else if name = "pack" then some Action.PackAction
  else if name = "debootstrap" then some Action.DebootstrapAction
  else if name = "setup-image" then some Action.SetupImage
  else if name = "deploy-image" then some Action.DeployImageAction
  else none

/-- The whitespace-separated words of a string, as the specification words the
splitting of the extra kernel arguments: the non-empty pieces between
whitespace characters. -/
def whitespaceWords (s : String) : List String :=
  ((splitWhere Char.isWhitespace s.data).filter (fun w => !w.isEmpty)).map String.mk

/-- An environment without injected faults: temporary files are named
`tmp012345`, external commands succeed and leave the file system alone. -/
def quietEnv : Env :=
  { copyFaults := fun _ => CopyFaults.ok "tmp012345",
    mkdirFault := fun _ => none,
    removeFault := fun _ => none,
    exec := fun _ _ fs => (fs, none) }

/-- An environment without injected faults whose external commands fail. -/
def failingCommandEnv : Env :=
  { quietEnv with exec := fun _ _ fs => (fs, some (Error.msg "exit status 1")) }

/-- An environment in which every removal `QemuHelper.Cleanup` asks for is
refused and nothing else fails. -/
def removalFailsEnv : Env :=
  { quietEnv with removeFault := fun _ => some (Error.msg "operation not permitted") }

/-- A build context with root directory `/scratch/rootdir`, as `main` sets it,
for architecture `arch`. -/
def sampleContext (arch : String) : YaibContext :=
  { rootdir := "/scratch/rootdir", artifactdir := "/artifacts", image := "",
    imageMntDir := "/scratch/mnt", Architecture := arch,
    imageKernelRoot := "root=/dev/sda1", imageFSTab := "" }

/-- A file system with nothing in it. -/
def emptyFS : FS := { entries := [] }

/-- A host that has both interpreters installed with mode 0755 (493), a target
tree with a `usr/bin` directory, and a recipe directory `files` holding two
regular files `a` and `b` of mode 0644 (420). -/
def sampleFS : FS :=
  { entries :=
      [("/usr/bin/qemu-arm-static", Entry.file "ELF" 493),
       ("/usr/bin/qemu-aarch64-static", Entry.file "ELF" 493),
       ("/scratch/rootdir", Entry.dir 493),
       ("/scratch/rootdir/usr", Entry.dir 493),
       ("/scratch/rootdir/usr/bin", Entry.dir 493),
       ("/recipe/files", Entry.dir 493),
       ("/recipe/files/a", Entry.file "A" 420),
       ("/recipe/files/b", Entry.file "B" 420)] }

/-- The target tree of `sampleFS` in which the path of the arm interpreter is
a directory holding a file `x`. -/
def occupiedFS : FS :=
  { entries :=
      ("/scratch/rootdir/usr/bin/qemu-arm-static", Entry.dir 493) ::
      ("/scratch/rootdir/usr/bin/qemu-arm-static/x", Entry.file "x" 420) ::
      sampleFS.entries }

/-- What `filepath.Walk` visits in the recipe directory `files` of
`sampleFS`. -/
def sampleWalk : List WalkEntry :=
  [{ path := "/recipe/files", suffix := ".", mode := ModeDir + 493, err := none },
   { path := "/recipe/files/a", suffix := "a", mode := 420, err := none },
   { path := "/recipe/files/b", suffix := "b", mode := 420, err := none }]

/-- The deploy action of the sample recipe: os-name `debian`, branch
`master`, with the given extra kernel arguments. -/
def sampleDeploy (append : String) : OstreeDeployAction :=
  { Repository := "repo", RemoteRepository := "https://example.org/repo",
    Branch := "master", Os := "debian", SetupFSTab := true,
    SetupKernelCmdline := true, AppendKernelCmdline := append }

/-- Store outcomes in which every call succeeds: the branch resolves to
revision `abc123` and the deployment created has serial 0. -/
def allSucceed : StoreOutcomes :=
  { cp := none, InitializeFS := none, InitOsname := none, OpenRepo := none,
    RemoteAdd := none, PullWithOptions := none, Load := none,
    ResolveRev := .ok "abc123",
    DeployTree := .ok { Osname := "debian", Csum := "abc123", Deployserial := 0 },
    Mkdir := none, OpenFile := none, Copy := none, SimpleWriteDeployment := none }

/-- The state before the deploy action: the context of `main`, no call made,
no active deployment. -/
def sampleState : DeployState :=
  { context := sampleContext "arm64", calls := [], active := fun _ => none }

/-- Faults that make only `os.Rename` fail. -/
def renameFails : CopyFaults :=
  { CopyFaults.ok "tmp012345" with renameErr := some (Error.msg "rename failed") }

/-- Faults that make only `os.Chmod` fail. -/
def chmodFails : CopyFaults :=
  { CopyFaults.ok "tmp012345" with chmodErr := some (Error.msg "chmod failed") }

/-- An environment in which opening the source of the copy to
`/scratch/rootdir/a` fails (the source file may not be read) and nothing else
does. -/
def firstCopyFailsEnv : Env :=
  { quietEnv with
    copyFaults := fun dst =>
      if dst = "/scratch/rootdir/a" then
        { CopyFaults.ok "tmp012345" with openErr := some (Error.msg "permission denied") }
      else CopyFaults.ok "tmp012345" }

/-- Store outcomes in which only `sysroot.Load` fails. -/
def loadFails : StoreOutcomes :=
  { allSucceed with Load := some (Error.msg "load failed") }

/-- Store outcomes in which only the pull fails. -/
def pullFails : StoreOutcomes :=
  { allSucceed with PullWithOptions := some (Error.msg "pull failed") }

theorem find_filter_ne (l : List (String × Entry)) (p q : String) :
    (l.filter (fun x => x.1 != p)).find? (fun x => x.1 == q) =
      if q = p then none else l.find? (fun x => x.1 == q) := by
  induction l with
  | nil => simp
  | cons x t ih =>
    by_cases hx : x.1 = p
    · by_cases hq : q = p
      · simp [List.filter_cons, hx, hq] at ih ⊢
      · have hpq : ¬ p = q := fun h => hq h.symm
        simp [List.filter_cons, List.find?_cons, hx, hq, hpq] at ih ⊢
        exact ih
    · by_cases hq : q = p
      · subst hq
        simp [List.filter_cons, List.find?_cons, hx] at ih ⊢
      · by_cases hxq : x.1 = q
        · simp [List.filter_cons, List.find?_cons, hx, hq, hxq]
        · simp [List.filter_cons, List.find?_cons, hx, hq, hxq] at ih ⊢
          exact ih

theorem fsGet_fsErase (fs : FS) (p q : String) :
    (fsErase fs p) q = if q = p then none else fs q := by
  show fsGet (fsErase fs p) q = if q = p then none else fsGet fs q
  unfold fsGet fsErase
  simp only [find_filter_ne]
  split <;> simp

theorem fsGet_fsSet (fs : FS) (p q : String) (e : Entry) :
    (fsSet fs p e) q = if q = p then some e else fs q := by
  show fsGet (fsSet fs p e) q = if q = p then some e else fsGet fs q
  by_cases hq : q = p
  · subst hq
    simp [fsGet, fsSet]
  · have hpq : ¬ p = q := fun h => hq h.symm
    have h := fsGet_fsErase fs p q
    simp only [hq, if_false] at h ⊢
    rw [← h]
    show fsGet (fsSet fs p e) q = fsGet (fsErase fs p) q
    simp [fsGet, fsSet, List.find?_cons, hpq]

theorem fsIsDir_set_file (fs : FS) (p q c : String) (m : Nat) (h : q ≠ p) :
    fsIsDir (fsSet fs p (Entry.file c m)) q = fsIsDir fs q := by
  simp [fsIsDir, fsGet_fsSet, h]

theorem osRemove_success_absent (fault : Option Error) (p : String) (fs : FS)
    (h : (osRemove fault p fs).2 = none) : (osRemove fault p fs).1 p = none := by
  unfold osRemove at h ⊢
  repeat' split at h
  all_goals first
    | (simp at h; done)
    | simp [fsGet_fsErase, *]

theorem osRemove_absent_of_absent (fault : Option Error) (p : String) (fs : FS)
    (h : fs p = none) : (osRemove fault p fs).1 p = none := by
  unfold osRemove
  cases fault with
  | some e => simpa using h
  | none => simp [h]

theorem osRemove_failure_unchanged (fault : Option Error) (p : String) (fs : FS)
    (e : Error) (h : (osRemove fault p fs).2 = some e) : (osRemove fault p fs).1 = fs := by
  unfold osRemove at h ⊢
  repeat' split at h
  all_goals first
    | (simp at h; done)
    | simp [*]

theorem osRemove_other (fault : Option Error) (p q : String) (fs : FS) (h : q ≠ p) :
    (osRemove fault p fs).1 q = fs q := by
  unfold osRemove
  repeat' split
  all_goals simp [fsGet_fsErase, h]

theorem osRemove_file (p c : String) (m : Nat) (fs : FS)
    (h : fs p = some (Entry.file c m)) : (osRemove none p fs).1 p = none := by
  unfold osRemove
  simp [h, fsGet_fsErase]

/-- C4: `NewQemuHelper` selects `/usr/bin/qemu-arm-static` for armhf, armel
and arm and `/usr/bin/qemu-aarch64-static` for arm64; for amd64 source and
target are empty and `Setup` and `Cleanup` do nothing; a selected interpreter
has as target the root directory joined with its host path; for every other
architecture `NewQemuHelper` panics, and `RunCommandInChroot` panics with the
world untouched, so before any command ran. -/
theorem NewQemuHelper_table (env : Env) (context : YaibContext)
    (label command : String) (arg : List String) (w : World) :
    ((context.Architecture = "armhf" ∨ context.Architecture = "armel" ∨
        context.Architecture = "arm") →
      NewQemuHelper context = .ok
        { qemusrc := "/usr/bin/qemu-arm-static",
          qemutarget := pathJoin [context.rootdir, "/usr/bin/qemu-arm-static"] }) ∧
    (context.Architecture = "arm64" →
      NewQemuHelper context = .ok
        { qemusrc := "/usr/bin/qemu-aarch64-static",
          qemutarget := pathJoin [context.rootdir, "/usr/bin/qemu-aarch64-static"] }) ∧
    (context.Architecture = "amd64" →
      NewQemuHelper context = .ok { qemusrc := "", qemutarget := "" } ∧
      ∀ fs : FS,
        QemuHelper.Setup env { qemusrc := "", qemutarget := "" } fs = (fs, none) ∧
        QemuHelper.Cleanup env { qemusrc := "", qemutarget := "" } fs = fs) ∧
    (∀ q : QemuHelper, NewQemuHelper context = .ok q → q.qemusrc ≠ "" →
      q.qemutarget = pathJoin [context.rootdir, q.qemusrc]) ∧
    (context.Architecture ∉ ["armhf", "armel", "arm", "arm64", "amd64"] →
      NewQemuHelper context =
        .error (Panic.unknownQemuArchitecture context.Architecture) ∧
      RunCommandInChroot env context label command arg w =
        (w, .error (Panic.unknownQemuArchitecture context.Architecture))) := by
  refine ⟨?_, ?_, ?_, ?_, ?_⟩
  · intro h
    rcases h with h | h | h <;> simp [NewQemuHelper, qemuSource, h]
  · intro h
    simp [NewQemuHelper, qemuSource, h]
  · intro h
    simp [NewQemuHelper, qemuSource, h, QemuHelper.Setup, QemuHelper.Cleanup]
  · intro q hq hsrc
    unfold NewQemuHelper at hq
    cases hs : qemuSource context.Architecture with
    | error p => simp [hs] at hq
    | ok src =>
      simp only [hs] at hq
      injection hq with hq
      subst hq
      simp at hsrc
      simp [hsrc]
  · intro h
    simp only [List.mem_cons, List.mem_singleton, List.not_mem_nil, or_false, not_or] at h
    obtain ⟨h1, h2, h3, h4, h5⟩ := h
    have hn : NewQemuHelper context =
        .error (Panic.unknownQemuArchitecture context.Architecture) := by
      simp [NewQemuHelper, qemuSource, h1, h2, h3, h4, h5]
    refine ⟨hn, ?_⟩
    simp [RunCommandInChroot, hn]

/-- Witness of C4 in the context of `main`, for armhf, arm64, amd64 and the
unsupported riscv64. -/
theorem NewQemuHelper_table_witness :
    (NewQemuHelper (sampleContext "armhf") = .ok
        { qemusrc := "/usr/bin/qemu-arm-static",
          qemutarget := pathJoin ["/scratch/rootdir", "/usr/bin/qemu-arm-static"] } ∧
      pathJoin ["/scratch/rootdir", "/usr/bin/qemu-arm-static"] =
        "/scratch/rootdir/usr/bin/qemu-arm-static") ∧
    NewQemuHelper (sampleContext "arm64") = .ok
        { qemusrc := "/usr/bin/qemu-aarch64-static",
          qemutarget := pathJoin ["/scratch/rootdir", "/usr/bin/qemu-aarch64-static"] } ∧
    NewQemuHelper (sampleContext "amd64") = .ok { qemusrc := "", qemutarget := "" } ∧
    (NewQemuHelper (sampleContext "riscv64") =
        .error (Panic.unknownQemuArchitecture "riscv64") ∧
      RunCommandInChroot quietEnv (sampleContext "riscv64") "run" "sh" ["-c", "true"]
          { fs := sampleFS, cmds := [] } =
        ({ fs := sampleFS, cmds := [] }, .error (Panic.unknownQemuArchitecture "riscv64"))) :=
  ⟨⟨(NewQemuHelper_table quietEnv (sampleContext "armhf") "run" "sh" ["-c", "true"]
        { fs := sampleFS, cmds := [] }).1 (Or.inl rfl), by decide⟩,
   (NewQemuHelper_table quietEnv (sampleContext "arm64") "run" "sh" ["-c", "true"]
        { fs := sampleFS, cmds := [] }).2.1 rfl,
   ((NewQemuHelper_table quietEnv (sampleContext "amd64") "run" "sh" ["-c", "true"]
        { fs := sampleFS, cmds := [] }).2.2.1 rfl).1,
   (NewQemuHelper_table quietEnv (sampleContext "riscv64") "run" "sh" ["-c", "true"]
        { fs := sampleFS, cmds := [] }).2.2.2.2 (by decide)⟩

/-- C5, counterexample: armhf in the context of `main`; the interpreter is
injected and the command succeeds, but the `os.Remove` of `Cleanup` fails and
its error is dropped, so the interpreter is still in the target tree when
`RunCommandInChroot` has returned nil; and when the interpreter path is a
directory that is not empty, the removal fails by itself and the path still
exists. -/
theorem RunCommandInChroot_failed_removal :
    (RunCommandInChroot removalFailsEnv (sampleContext "armhf") "run" "sh" ["-c", "true"]
        { fs := sampleFS, cmds := [] }).2 = .ok none ∧
    (RunCommandInChroot removalFailsEnv (sampleContext "armhf") "run" "sh" ["-c", "true"]
        { fs := sampleFS, cmds := [] }).1.fs
        (pathJoin ["/scratch/rootdir", "/usr/bin/qemu-arm-static"]) =
      some (Entry.file "ELF" 243) ∧
    (RunCommandInChroot quietEnv (sampleContext "armhf") "run" "sh" ["-c", "true"]
        { fs := occupiedFS, cmds := [] }).2 = .ok none ∧
    (RunCommandInChroot quietEnv (sampleContext "armhf") "run" "sh" ["-c", "true"]
        { fs := occupiedFS, cmds := [] }).1.fs
        (pathJoin ["/scratch/rootdir", "/usr/bin/qemu-arm-static"]) =
      some (Entry.dir 493) := by
  refine ⟨rfl, by decide, rfl, by decide⟩

/-- C5, amended: for an architecture with an interpreter in the table,
whatever the injected faults, the command and its outcome,
`RunCommandInChroot` returns the result of the command after `Cleanup` has
called `os.Remove` on the interpreter path, root directory joined with the
host path of the interpreter; when that removal succeeds, or the path held
nothing when the command had returned, the path holds nothing in the file
system `RunCommandInChroot` leaves; when the removal fails, the file system
is as the command left it. -/
theorem RunCommandInChroot_removes_interpreter (env : Env) (context : YaibContext)
    (label command : String) (arg : List String) (w : World) (src : String)
    (hsrc : qemuSource context.Architecture = .ok src) (hforeign : src ≠ "") :
    (RunCommandInChroot env context label command arg w).2 =
      .ok (env.exec "systemd-nspawn" (["-D", context.rootdir, command] ++ arg)
        (QemuHelper.Setup env
          { qemusrc := src, qemutarget := pathJoin [context.rootdir, src] } w.fs).1).2 ∧
    (RunCommandInChroot env context label command arg w).1.fs =
      (osRemove (env.removeFault (pathJoin [context.rootdir, src]))
        (pathJoin [context.rootdir, src])
        (env.exec "systemd-nspawn" (["-D", context.rootdir, command] ++ arg)
          (QemuHelper.Setup env
            { qemusrc := src, qemutarget := pathJoin [context.rootdir, src] } w.fs).1).1).1 ∧
    (((osRemove (env.removeFault (pathJoin [context.rootdir, src]))
          (pathJoin [context.rootdir, src])
          (env.exec "systemd-nspawn" (["-D", context.rootdir, command] ++ arg)
            (QemuHelper.Setup env
              { qemusrc := src, qemutarget := pathJoin [context.rootdir, src] }
              w.fs).1).1).2 = none ∨
        (env.exec "systemd-nspawn" (["-D", context.rootdir, command] ++ arg)
          (QemuHelper.Setup env
            { qemusrc := src, qemutarget := pathJoin [context.rootdir, src] } w.fs).1).1
          (pathJoin [context.rootdir, src]) = none) →
      (RunCommandInChroot env context label command arg w).1.fs
        (pathJoin [context.rootdir, src]) = none) ∧
    (∀ e, (osRemove (env.removeFault (pathJoin [context.rootdir, src]))
          (pathJoin [context.rootdir, src])
          (env.exec "systemd-nspawn" (["-D", context.rootdir, command] ++ arg)
            (QemuHelper.Setup env
              { qemusrc := src, qemutarget := pathJoin [context.rootdir, src] }
              w.fs).1).1).2 = some e →
      (RunCommandInChroot env context label command arg w).1.fs =
        (env.exec "systemd-nspawn" (["-D", context.rootdir, command] ++ arg)
          (QemuHelper.Setup env
            { qemusrc := src, qemutarget := pathJoin [context.rootdir, src] } w.fs).1).1) := by
  have hq : NewQemuHelper context =
      .ok { qemusrc := src, qemutarget := pathJoin [context.rootdir, src] } := by
    simp [NewQemuHelper, hsrc, hforeign]
  have hfs : (RunCommandInChroot env context label command arg w).1.fs =
      (osRemove (env.removeFault (pathJoin [context.rootdir, src]))
        (pathJoin [context.rootdir, src])
        (env.exec "systemd-nspawn" (["-D", context.rootdir, command] ++ arg)
          (QemuHelper.Setup env
            { qemusrc := src, qemutarget := pathJoin [context.rootdir, src] } w.fs).1).1).1 := by
    simp [RunCommandInChroot, hq, RunCommand, QemuHelper.Cleanup, hforeign]
  refine ⟨?_, hfs, ?_, ?_⟩
  · simp [RunCommandInChroot, hq, RunCommand]
  · intro h
    rw [hfs]
    rcases h with h | h
    · exact osRemove_success_absent _ _ _ h
    · exact osRemove_absent_of_absent _ _ _ h
  · intro e he
    rw [hfs]
    exact osRemove_failure_unchanged _ _ _ e he

/-- Witness of C5: armhf in the context of `main`, with the interpreter
injected successfully: after a command that fails and a removal that
succeeds the interpreter path holds nothing; after a removal that is refused
the file system is as `Setup` and the command left it. -/
theorem RunCommandInChroot_removes_interpreter_witness :
    (QemuHelper.Setup failingCommandEnv
        { qemusrc := "/usr/bin/qemu-arm-static",
          qemutarget := "/scratch/rootdir/usr/bin/qemu-arm-static" } sampleFS).1
        "/scratch/rootdir/usr/bin/qemu-arm-static" = some (Entry.file "ELF" 243) ∧
    (RunCommandInChroot failingCommandEnv (sampleContext "armhf") "run" "sh" ["-c", "false"]
        { fs := sampleFS, cmds := [] }).2 = .ok (some (Error.msg "exit status 1")) ∧
    (RunCommandInChroot failingCommandEnv (sampleContext "armhf") "run" "sh" ["-c", "false"]
        { fs := sampleFS, cmds := [] }).1.fs
        (pathJoin ["/scratch/rootdir", "/usr/bin/qemu-arm-static"]) = none ∧
    (RunCommandInChroot removalFailsEnv (sampleContext "armhf") "run" "sh" ["-c", "true"]
        { fs := sampleFS, cmds := [] }).1.fs =
      (QemuHelper.Setup removalFailsEnv
        { qemusrc := "/usr/bin/qemu-arm-static",
          qemutarget := pathJoin ["/scratch/rootdir", "/usr/bin/qemu-arm-static"] }
        sampleFS).1 :=
  ⟨by decide,
   (RunCommandInChroot_removes_interpreter failingCommandEnv (sampleContext "armhf") "run"
     "sh" ["-c", "false"] { fs := sampleFS, cmds := [] } "/usr/bin/qemu-arm-static"
     rfl (by decide)).1,
   (RunCommandInChroot_removes_interpreter failingCommandEnv (sampleContext "armhf") "run"
     "sh" ["-c", "false"] { fs := sampleFS, cmds := [] } "/usr/bin/qemu-arm-static"
     rfl (by decide)).2.2.1 (Or.inl (by decide)),
   (RunCommandInChroot_removes_interpreter removalFailsEnv (sampleContext "armhf") "run"
     "sh" ["-c", "true"] { fs := sampleFS, cmds := [] } "/usr/bin/qemu-arm-static"
     rfl (by decide)).2.2.2 (Error.msg "operation not permitted") rfl⟩

/-- C6: with the host interpreter of arm64 missing, `QemuHelper.Setup` fails
(the open in `CopyFile` reports that the file does not exist), and yet
`RunCommandInChroot` runs `systemd-nspawn` and returns nil. -/
theorem RunCommandInChroot_ignores_failed_Setup :
    NewQemuHelper (sampleContext "arm64") = .ok
      { qemusrc := "/usr/bin/qemu-aarch64-static",
        qemutarget := "/scratch/rootdir/usr/bin/qemu-aarch64-static" } ∧
    (QemuHelper.Setup quietEnv
      { qemusrc := "/usr/bin/qemu-aarch64-static",
        qemutarget := "/scratch/rootdir/usr/bin/qemu-aarch64-static" } emptyFS).2 =
      some Error.notExist ∧
    (RunCommandInChroot quietEnv (sampleContext "arm64") "run" "sh" ["-c", "true"]
      { fs := emptyFS, cmds := [] }).2 = .ok none ∧
    (RunCommandInChroot quietEnv (sampleContext "arm64") "run" "sh" ["-c", "true"]
      { fs := emptyFS, cmds := [] }).1.cmds =
      [("systemd-nspawn", ["-D", "/scratch/rootdir", "sh", "-c", "true"])] := by
  refine ⟨rfl, by decide, rfl, by decide⟩

/-- The command is run whatever `Setup` returned: for every architecture of
the table, `RunCommandInChroot` adds exactly the `systemd-nspawn` invocation
to the record of commands. -/
theorem RunCommandInChroot_always_runs (env : Env) (context : YaibContext)
    (label command : String) (arg : List String) (w : World) (q : QemuHelper)
    (hq : NewQemuHelper context = .ok q) :
    (RunCommandInChroot env context label command arg w).1.cmds =
      w.cmds ++ [("systemd-nspawn", ["-D", context.rootdir, command] ++ arg)] := by
  simp [RunCommandInChroot, hq, RunCommand]

/-- C10: the mode `QemuHelper.Setup` hands to `CopyFile` is the decimal number
755, whose permission bits are 243 (octal 0363), not 493 (octal 0755): the
interpreter installed on the host with mode 0755 arrives in the target tree
with mode 0363. -/
theorem Setup_mode_not_0755 :
    QemuHelper.setupMode = 755 ∧
    Perm QemuHelper.setupMode = 3 * 64 + 6 * 8 + 3 ∧
    Perm QemuHelper.setupMode ≠ 7 * 64 + 5 * 8 + 5 ∧
    sampleFS "/usr/bin/qemu-aarch64-static" = some (Entry.file "ELF" (7 * 64 + 5 * 8 + 5)) ∧
    QemuHelper.Setup quietEnv
        { qemusrc := "/usr/bin/qemu-aarch64-static",
          qemutarget := "/scratch/rootdir/usr/bin/qemu-aarch64-static" } sampleFS =
      CopyFile (CopyFaults.ok "tmp012345") "/usr/bin/qemu-aarch64-static"
        "/scratch/rootdir/usr/bin/qemu-aarch64-static" 755 sampleFS ∧
    (QemuHelper.Setup quietEnv
        { qemusrc := "/usr/bin/qemu-aarch64-static",
          qemutarget := "/scratch/rootdir/usr/bin/qemu-aarch64-static" } sampleFS).2 = none ∧
    (QemuHelper.Setup quietEnv
        { qemusrc := "/usr/bin/qemu-aarch64-static",
          qemutarget := "/scratch/rootdir/usr/bin/qemu-aarch64-static" } sampleFS).1
        "/scratch/rootdir/usr/bin/qemu-aarch64-static" =
      some (Entry.file "ELF" (3 * 64 + 6 * 8 + 3)) := by
  refine ⟨rfl, by decide, by decide, by decide, rfl, by decide, by decide⟩

/-! ## `CopyFile` and `CopyTree`: theorems -/

theorem write_success (o : CopyFaults) (srcEntry : Entry) (tmp dst : String)
    (mode : Nat) (fs : FS) (h : (CopyFile.write o srcEntry tmp dst mode fs).2 = none) :
    ∃ content perm, srcEntry = Entry.file content perm ∧
      (CopyFile.write o srcEntry tmp dst mode fs).1 dst =
        some (Entry.file content (Perm mode)) ∧
      (tmp ≠ dst → (CopyFile.write o srcEntry tmp dst mode fs).1 tmp = none) := by
  unfold CopyFile.write at h ⊢
  cases h1 : o.copyErr with
  | some e => simp [h1] at h
  | none =>
    cases srcEntry with
    | dir m => simp [h1] at h
    | file content perm =>
      cases h2 : o.closeErr with
      | some e => simp [h1, h2] at h
      | none =>
        cases h3 : o.chmodErr with
        | some e => simp [h1, h2, h3] at h
        | none =>
          cases h4 : o.renameErr with
          | some e => simp [h1, h2, h3, h4] at h
          | none =>
            simp only [h1, h2, h3, h4] at h ⊢
            split at h
            · simp at h
            · rename_i hd
              refine ⟨content, perm, rfl, ?_, ?_⟩
              · simp only [hd, if_false]
                simp [fsGet_fsSet]
              · intro hne
                simp only [hd, if_false]
                simp [fsGet_fsSet, fsGet_fsErase, hne]

theorem write_error_dst (o : CopyFaults) (srcEntry : Entry) (tmp dst : String)
    (mode : Nat) (fs : FS) (e : Error)
    (h : (CopyFile.write o srcEntry tmp dst mode fs).2 = some e) (hne : dst ≠ tmp) :
    (CopyFile.write o srcEntry tmp dst mode fs).1 dst = fs dst := by
  unfold CopyFile.write at h ⊢
  cases h1 : o.copyErr with
  | some e1 =>
    simp only [h1]
    rw [osRemove_other _ _ _ _ hne]
    simp [fsGet_fsSet, hne]
  | none =>
    cases srcEntry with
    | dir m =>
      simp only [h1]
      exact osRemove_other _ _ _ _ hne
    | file content perm =>
      cases h2 : o.closeErr with
      | some e2 =>
        simp only [h1, h2]
        rw [osRemove_other _ _ _ _ hne]
        simp [fsGet_fsSet, hne]
      | none =>
        cases h3 : o.chmodErr with
        | some e3 =>
          simp only [h1, h2, h3]
          rw [osRemove_other _ _ _ _ hne]
          simp [fsGet_fsSet, hne]
        | none =>
          cases h4 : o.renameErr with
          | some e4 =>
            simp only [h1, h2, h3, h4]
            simp [fsGet_fsSet, hne]
          | none =>
            simp only [h1, h2, h3, h4] at h ⊢
            split at h
            · rename_i hd
              simp only [hd, if_true]
              simp [fsGet_fsSet, hne]
            · simp at h

theorem write_error_temp (o : CopyFaults) (srcEntry : Entry) (tmp dst : String)
    (mode : Nat) (fs : FS) (e : Error) (c : String) (m : Nat)
    (h : (CopyFile.write o srcEntry tmp dst mode fs).2 = some e)
    (htmp : fs tmp = some (Entry.file c m))
    (hremove : o.removeErr = none) (hrename : o.renameErr = none)
    (hdst : fsIsDir fs dst = false) (hne : dst ≠ tmp) :
    (CopyFile.write o srcEntry tmp dst mode fs).1 tmp = none := by
  unfold CopyFile.write at h ⊢
  have hset : ∀ (g : FS) (c1 : String) (m1 : Nat),
      (osRemove none tmp (fsSet g tmp (Entry.file c1 m1))).1 tmp = none := by
    intro g c1 m1
    exact osRemove_file tmp c1 m1 _ (by simp [fsGet_fsSet])
  cases h1 : o.copyErr with
  | some e1 =>
    simp only [h1, hremove]
    exact hset _ _ _
  | none =>
    cases srcEntry with
    | dir m1 =>
      simp only [h1, hremove]
      exact osRemove_file tmp c m fs htmp
    | file content perm =>
      cases h2 : o.closeErr with
      | some e2 =>
        simp only [h1, h2, hremove]
        exact hset _ _ _
      | none =>
        cases h3 : o.chmodErr with
        | some e3 =>
          simp only [h1, h2, h3, hremove]
          exact hset _ _ _
        | none =>
          simp only [h1, h2, h3, hrename] at h ⊢
          split at h
          · rename_i hd
            rw [fsIsDir_set_file _ _ _ _ _ hne, fsIsDir_set_file _ _ _ _ _ hne] at hd
            rw [hdst] at hd
            exact absurd hd (by decide)
          · simp at h

/-- On success the source is a regular file, the destination holds its
content with the permission bits of the mode, and the temporary file is
gone. -/
theorem CopyFile_success (o : CopyFaults) (src dst : String) (mode : Nat) (fs : FS)
    (h : (CopyFile o src dst mode fs).2 = none) :
    ∃ content perm, fs src = some (Entry.file content perm) ∧
      (CopyFile o src dst mode fs).1 dst = some (Entry.file content (Perm mode)) ∧
      (tempPath o dst ≠ dst → (CopyFile o src dst mode fs).1 (tempPath o dst) = none) := by
  unfold CopyFile at h ⊢
  cases h1 : o.openErr with
  | some e => simp [h1] at h
  | none =>
    cases h2 : fs src with
    | none => simp [h1, h2] at h
    | some srcEntry =>
      cases h3 : o.tempErr with
      | some e => simp [h1, h2, h3] at h
      | none =>
        simp only [h1, h2, h3] at h ⊢
        split at h
        · simp at h
        · split at h
          · simp at h
          · rename_i hd hf
            simp only [hd, hf, Bool.false_eq_true, if_false]
            obtain ⟨content, perm, hs, h5, h6⟩ := write_success _ _ _ _ _ _ h
            exact ⟨content, perm, by rw [hs], h5, h6⟩

/-- On an error return the destination is as before the call, and so is the
path of the temporary file unless it is the rename, or the removal of the
temporary file, that failed. -/
theorem CopyFile_error (o : CopyFaults) (src dst : String) (mode : Nat) (fs : FS)
    (e : Error) (h : (CopyFile o src dst mode fs).2 = some e)
    (hne : dst ≠ tempPath o dst) :
    (CopyFile o src dst mode fs).1 dst = fs dst ∧
    (o.renameErr = none → o.removeErr = none → fsIsDir fs dst = false →
      (CopyFile o src dst mode fs).1 (tempPath o dst) = fs (tempPath o dst)) := by
  unfold CopyFile at h ⊢
  cases h1 : o.openErr with
  | some e1 => simp [h1]
  | none =>
    cases h2 : fs src with
    | none => simp [h1, h2]
    | some srcEntry =>
      cases h3 : o.tempErr with
      | some e3 => simp [h1, h2, h3]
      | none =>
        simp only [h1, h2, h3] at h ⊢
        split at h
        · rename_i hd
          simp [hd]
        · split at h
          · rename_i hd hf
            simp [hd, hf]
          · rename_i hd hf
            simp only [hd, hf, Bool.false_eq_true, if_false]
            have hfresh : fs (tempPath o dst) = none := by
              cases hq : fs (tempPath o dst) with
              | none => rfl
              | some x => simp [hq] at hf
            refine ⟨?_, ?_⟩
            · rw [write_error_dst _ _ _ _ _ _ e h hne]
              simp [fsGet_fsSet, hne]
            · intro hr hrm hdst
              rw [hfresh]
              apply write_error_temp _ _ _ _ _ _ e "" 384 h _ hrm hr _ hne
              · simp [fsGet_fsSet]
              · rw [fsIsDir_set_file _ _ _ _ _ hne]
                exact hdst

/-- The walk function of `CopyTree` reports no failure of `os.Mkdir` or
`CopyFile`: on a directory or a regular file it returns nil whatever they
returned. -/
theorem walker_drops_errors (env : Env) (desttree : String) (en : WalkEntry) (fs : FS)
    (h : en.err = none) (hm : IsDir en.mode = true ∨ IsRegular en.mode = true) :
    (CopyTree.walker env desttree en fs).2 = .ok none := by
  unfold CopyTree.walker
  simp only [h]
  by_cases hd : IsDir en.mode = true
  · simp [hd]
  · rcases hm with hm | hm
    · exact absurd hm hd
    · simp [hd, hm]

/-- C9: when `os.Rename` fails, `CopyFile` returns the error and leaves the
destination as it was, but the temporary file it created in the parent
directory of the destination is still there, with the content of the source;
when `os.Chmod` fails instead, the temporary file is removed. -/
theorem CopyFile_rename_failure_leaves_temp :
    tempPath renameFails "/scratch/rootdir/usr/bin/qemu-arm-static" =
      "/scratch/rootdir/usr/bin/tmp012345" ∧
    sampleFS "/scratch/rootdir/usr/bin/tmp012345" = none ∧
    (CopyFile renameFails "/usr/bin/qemu-arm-static"
      "/scratch/rootdir/usr/bin/qemu-arm-static" 493 sampleFS).2 =
      some (Error.msg "rename failed") ∧
    (CopyFile renameFails "/usr/bin/qemu-arm-static"
      "/scratch/rootdir/usr/bin/qemu-arm-static" 493 sampleFS).1
      "/scratch/rootdir/usr/bin/qemu-arm-static" =
      sampleFS "/scratch/rootdir/usr/bin/qemu-arm-static" ∧
    (CopyFile renameFails "/usr/bin/qemu-arm-static"
      "/scratch/rootdir/usr/bin/qemu-arm-static" 493 sampleFS).1
      "/scratch/rootdir/usr/bin/tmp012345" = some (Entry.file "ELF" 493) ∧
    (CopyFile chmodFails "/usr/bin/qemu-arm-static"
      "/scratch/rootdir/usr/bin/qemu-arm-static" 493 sampleFS).2 =
      some (Error.msg "chmod failed") ∧
    (CopyFile chmodFails "/usr/bin/qemu-arm-static"
      "/scratch/rootdir/usr/bin/qemu-arm-static" 493 sampleFS).1
      "/scratch/rootdir/usr/bin/tmp012345" = none := by
  refine ⟨by decide, by decide, by decide, by decide, by decide, by decide, by decide⟩

/-- C8: overlaying the recipe directory `files` (regular files `a` and `b`)
on `/scratch/rootdir` when the copy of `a` fails: `CopyFile` reports the error
for `a`, but `CopyTree` goes on, copies `b`, and ends without any error or
panic. -/
theorem CopyTree_continues_after_failure :
    (CopyFile (firstCopyFailsEnv.copyFaults "/scratch/rootdir/a") "/recipe/files/a"
      "/scratch/rootdir/a" 420 sampleFS).2 = some (Error.msg "permission denied") ∧
    (CopyTree firstCopyFailsEnv sampleWalk "/scratch/rootdir" sampleFS).2 = .ok () ∧
    (CopyTree firstCopyFailsEnv sampleWalk "/scratch/rootdir" sampleFS).1
      "/scratch/rootdir/a" = none ∧
    sampleFS "/scratch/rootdir/b" = none ∧
    (CopyTree firstCopyFailsEnv sampleWalk "/scratch/rootdir" sampleFS).1
      "/scratch/rootdir/b" = some (Entry.file "B" 420) := by
  refine ⟨by decide, rfl, by decide, by decide, by decide⟩

/-! ## Kernel arguments: theorems -/

theorem splitWhere_free (p : Char → Bool) (w : List Char)
    (hw : ∀ c ∈ w, p c = false) : splitWhere p w = [w] := by
  induction w with
  | nil => rfl
  | cons c t ih =>
    have hc : p c = false := hw c (List.mem_cons_self _ _)
    have ht : ∀ d ∈ t, p d = false := fun d hd => hw d (List.mem_cons_of_mem _ hd)
    simp [splitWhere, hc, ih ht]

theorem splitWhere_append (p : Char → Bool) (sep : Char) (hsep : p sep = true)
    (w r : List Char) (hw : ∀ c ∈ w, p c = false) :
    splitWhere p (w ++ sep :: r) = w :: splitWhere p r := by
  induction w with
  | nil => simp [splitWhere, hsep]
  | cons c t ih =>
    have hc : p c = false := hw c (List.mem_cons_self _ _)
    have ht : ∀ d ∈ t, p d = false := fun d hd => hw d (List.mem_cons_of_mem _ hd)
    simp [splitWhere, hc, ih ht]

theorem splitWhere_joinChars (p : Char → Bool) (sep : Char) (hsep : p sep = true) :
    ∀ ws : List (List Char), ws ≠ [] → (∀ w ∈ ws, ∀ c ∈ w, p c = false) →
      splitWhere p (joinChars sep ws) = ws
  | [], h, _ => absurd rfl h
  | [w], _, hw => by
    simpa [joinChars] using splitWhere_free p w (hw w (List.mem_singleton_self _))
  | w :: v :: r, _, hw => by
    have h1 : ∀ c ∈ w, p c = false := hw w (List.mem_cons_self _ _)
    have h2 : ∀ u ∈ v :: r, ∀ c ∈ u, p c = false :=
      fun u hu => hw u (List.mem_cons_of_mem _ hu)
    rw [joinChars, splitWhere_append p sep hsep w _ h1,
      splitWhere_joinChars p sep hsep (v :: r) (List.cons_ne_nil _ _) h2]

theorem joinChars_ne_nil (sep : Char) :
    ∀ ws : List (List Char), ws ≠ [] → (∀ w ∈ ws, w ≠ []) → joinChars sep ws ≠ []
  | [], h, _ => absurd rfl h
  | [w], _, hw => by simpa [joinChars] using hw w (List.mem_singleton_self _)
  | w :: v :: r, _, hw => by
    have := hw w (List.mem_cons_self _ _)
    simp [joinChars, this]

theorem finish_calls (o : StoreOutcomes) (ot : OstreeDeployAction) (d : Deployment)
    (st : DeployState) (os revision origin : String) (k : List String)
    (hk : Call.DeployTree os revision origin k ∈ (OstreeDeployAction.finish o ot d st).1.calls) :
    Call.DeployTree os revision origin k ∈ st.calls := by
  unfold OstreeDeployAction.finish OstreeDeployAction.setupFSTab at hk
  simp only [DeployState.call] at hk
  repeat' split at hk
  all_goals simp_all

theorem Run_DeployTree_call (o : StoreOutcomes) (ot : OstreeDeployAction)
    (st : DeployState) (os revision origin : String) (k : List String)
    (hst : st.calls = [])
    (hk : Call.DeployTree os revision origin k ∈ (ot.Run o st).1.calls) :
    k = ot.kargs st.context := by
  unfold OstreeDeployAction.Run at hk
  simp only [DeployState.call, hst] at hk
  repeat' split at hk
  all_goals first
    | (have hc := finish_calls _ _ _ _ _ _ _ _ hk
       simp [OstreeDeployAction.kargs] at hc
       simp [OstreeDeployAction.kargs, hc])
    | simp_all [OstreeDeployAction.kargs]

/-- C3, counterexample: with two spaces between `quiet` and `splash` the
arguments handed to `DeployTree` contain an empty string, which is not a
whitespace-separated word of the input. -/
theorem kargs_counterexample :
    (sampleDeploy "quiet  splash").kargs (sampleContext "arm64") =
      ["root=/dev/sda1", "quiet", "", "splash"] ∧
    whitespaceWords "quiet  splash" = ["quiet", "splash"] ∧
    (sampleDeploy "quiet  splash").kargs (sampleContext "arm64") ≠
      [(sampleContext "arm64").imageKernelRoot] ++
        whitespaceWords (sampleDeploy "quiet  splash").AppendKernelCmdline := by
  refine ⟨by decide, by decide, by decide⟩

/-- C3, amended: the kernel arguments are the root-device argument when
`SetupKernelCmdline` is set (nothing otherwise) followed, when
`AppendKernelCmdline` is not empty, by its pieces between single space
characters; `DeployTree` is called with these arguments and no others; and
when `AppendKernelCmdline` is made of non-empty words free of whitespace,
joined by one space each, the pieces are its whitespace-separated words. -/
theorem kargs_composition (ot : OstreeDeployAction) (context : YaibContext) :
    ot.kargs context =
      (if ot.SetupKernelCmdline then [context.imageKernelRoot] else []) ++
        (if ot.AppendKernelCmdline = "" then [] else stringsSplit ot.AppendKernelCmdline ' ') ∧
    (∀ (o : StoreOutcomes) (st : DeployState) (os revision origin : String)
        (k : List String), st.calls = [] →
      Call.DeployTree os revision origin k ∈ (ot.Run o st).1.calls →
      k = ot.kargs st.context) ∧
    (∀ ws : List (List Char), ws ≠ [] →
      (∀ w ∈ ws, w ≠ [] ∧ ∀ c ∈ w, c.isWhitespace = false) →
      ot.AppendKernelCmdline = String.mk (joinChars ' ' ws) →
      whitespaceWords ot.AppendKernelCmdline = ws.map String.mk ∧
      ot.kargs context =
        (if ot.SetupKernelCmdline then [context.imageKernelRoot] else []) ++
          whitespaceWords ot.AppendKernelCmdline) := by
  refine ⟨?_, ?_, ?_⟩
  · unfold OstreeDeployAction.kargs
    by_cases h : ot.AppendKernelCmdline = "" <;> simp [h]
  · intro o st os revision origin k hst hk
    exact Run_DeployTree_call o ot st os revision origin k hst hk
  · intro ws hne hws hs
    have hnonempty : ∀ w ∈ ws, w ≠ [] := fun w hw => (hws w hw).1
    have hspace : ∀ w ∈ ws, ∀ c ∈ w, (fun c => c == ' ') c = false := by
      intro w hw c hc
      have := (hws w hw).2 c hc
      simp only [beq_eq_false_iff_ne, ne_eq]
      intro h
      subst h
      simp [Char.isWhitespace] at this
    have hwhite : ∀ w ∈ ws, ∀ c ∈ w, Char.isWhitespace c = false :=
      fun w hw => (hws w hw).2
    have hsplit : stringsSplit ot.AppendKernelCmdline ' ' = ws.map String.mk := by
      simp only [stringsSplit, splitChars, hs]
      rw [splitWhere_joinChars _ ' ' (by decide) ws hne hspace]
    have hwords : whitespaceWords ot.AppendKernelCmdline = ws.map String.mk := by
      simp only [whitespaceWords, hs]
      rw [splitWhere_joinChars _ ' ' (by decide) ws hne hwhite]
      congr 1
      rw [List.filter_eq_self]
      intro w hw
      have := hnonempty w hw
      cases w with
      | nil => exact absurd rfl this
      | cons a t => rfl
    have hs0 : ot.AppendKernelCmdline ≠ "" := by
      rw [hs]
      intro h
      have h2 := congrArg String.data h
      exact joinChars_ne_nil ' ' ws hne hnonempty h2
    refine ⟨hwords, ?_⟩
    unfold OstreeDeployAction.kargs
    simp only [ne_eq, hs0, not_false_eq_true, if_true, hsplit, hwords]

/-- Witness of C3: the example of the specification, `root=/dev/sda1` with
`quiet splash`, in the arguments computed and in the call of `DeployTree`. -/
theorem kargs_composition_witness :
    (sampleDeploy "quiet splash").kargs (sampleContext "arm64") =
      ["root=/dev/sda1", "quiet", "splash"] ∧
    Call.DeployTree "debian" "abc123" "origin:master" ["root=/dev/sda1", "quiet", "splash"] ∈
      ((sampleDeploy "quiet splash").Run allSucceed sampleState).1.calls :=
  ⟨((kargs_composition (sampleDeploy "quiet splash") (sampleContext "arm64")).2.2
      ["quiet".data, "splash".data] (by decide) (by decide) rfl).2.trans (by decide),
   (kargs_composition (sampleDeploy "quiet splash") (sampleContext "arm64")).2.1
      allSucceed sampleState "debian" "abc123" "origin:master"
      ["root=/dev/sda1", "quiet", "splash"] rfl (by decide) ▸ (by decide)⟩

/-! ## The deploy action: theorems -/

/-- The outcome of `sysroot.Load` has no influence on `Run`. -/
theorem Run_Load_unchecked (o : StoreOutcomes) (ot : OstreeDeployAction)
    (st : DeployState) (e : Option Error) :
    ot.Run { o with Load := e } st = ot.Run o st := rfl

theorem setupFSTab_active (o : StoreOutcomes) (d : Deployment) (st : DeployState) :
    (OstreeDeployAction.setupFSTab o d st).1.active = st.active := by
  unfold OstreeDeployAction.setupFSTab
  simp only [DeployState.call]
  repeat' split
  all_goals rfl

theorem finish_error_keeps_active (o : StoreOutcomes) (ot : OstreeDeployAction)
    (d : Deployment) (st : DeployState) (e : Error)
    (h : (OstreeDeployAction.finish o ot d st).2 = some e) :
    (OstreeDeployAction.finish o ot d st).1.active = st.active := by
  unfold OstreeDeployAction.finish at h ⊢
  simp only [DeployState.call] at h ⊢
  by_cases hf : ot.SetupFSTab = true
  · simp only [hf, if_true] at h ⊢
    have ha := setupFSTab_active o d st
    repeat' split at h
    all_goals simp_all
  · simp only [hf] at h ⊢
    repeat' split at h
    all_goals simp_all

/-- When `Run` returns an error the active deployments are those from before
the action. -/
theorem Run_error_keeps_active (o : StoreOutcomes) (ot : OstreeDeployAction)
    (st : DeployState) (e : Error) (h : (ot.Run o st).2 = some e) :
    (ot.Run o st).1.active = st.active := by
  unfold OstreeDeployAction.Run at h ⊢
  simp only [DeployState.call] at h ⊢
  repeat' split at h
  all_goals first
    | (simp_all; done)
    | exact finish_error_keeps_active _ _ _ _ _ h

theorem finish_SimpleWrite (o : StoreOutcomes) (ot : OstreeDeployAction)
    (d : Deployment) (st : DeployState) (os : String) (d1 : Deployment)
    (h : Call.SimpleWriteDeployment os d1 ∈ (OstreeDeployAction.finish o ot d st).1.calls) :
    Call.SimpleWriteDeployment os d1 ∈ st.calls ∨
      (d1 = d ∧
        (ot.SetupFSTab = true →
          (o.Mkdir = none ∨ o.Mkdir = some Error.exist) ∧ o.OpenFile = none ∧
            o.Copy = none)) := by
  unfold OstreeDeployAction.finish OstreeDeployAction.setupFSTab at h
  simp only [DeployState.call] at h
  have hm : Option.filter (fun e => !osIsExist e) o.Mkdir = none →
      (o.Mkdir = none ∨ o.Mkdir = some Error.exist) := by
    intro hf
    cases hM : o.Mkdir with
    | none => exact Or.inl rfl
    | some e =>
      right
      cases e <;> simp [hM, Option.filter, osIsExist] at hf ⊢
  repeat' split at h
  all_goals first
    | (simp_all; done)
    | (simp_all; tauto)

/-- `SimpleWriteDeployment` is called only when every call before it whose
error `Run` looks at succeeded: all but `sysroot.Load`. -/
theorem Run_SimpleWrite_only_after_success (o : StoreOutcomes)
    (ot : OstreeDeployAction) (st : DeployState) (os : String) (d : Deployment)
    (hst : st.calls = [])
    (h : Call.SimpleWriteDeployment os d ∈ (ot.Run o st).1.calls) :
    o.cp = none ∧ o.InitializeFS = none ∧ o.InitOsname = none ∧ o.OpenRepo = none ∧
    o.RemoteAdd = none ∧ o.PullWithOptions = none ∧ (∃ rev, o.ResolveRev = .ok rev) ∧
    o.DeployTree = .ok d ∧
    (ot.SetupFSTab = true →
      (o.Mkdir = none ∨ o.Mkdir = some Error.exist) ∧ o.OpenFile = none ∧
        o.Copy = none) := by
  unfold OstreeDeployAction.Run at h
  simp only [DeployState.call, hst] at h
  repeat' split at h
  all_goals first
    | (simp_all; done)
    | (have hc := finish_SimpleWrite _ _ _ _ _ _ h
       simp_all)

/-- C7: when only `sysroot.Load` fails, `Run` does not abort: it goes on to
call `SimpleWriteDeployment`, makes the new deployment the active one and
returns nil; when the pull fails instead, `Run` returns that error and the
active deployment is unchanged. -/
theorem Run_ignores_Load_failure :
    loadFails.Load = some (Error.msg "load failed") ∧
    ((sampleDeploy "").Run loadFails sampleState).2 = none ∧
    Call.SimpleWriteDeployment "debian"
        { Osname := "debian", Csum := "abc123", Deployserial := 0 } ∈
      ((sampleDeploy "").Run loadFails sampleState).1.calls ∧
    sampleState.active "debian" = none ∧
    ((sampleDeploy "").Run loadFails sampleState).1.active "debian" =
      some { Osname := "debian", Csum := "abc123", Deployserial := 0 } ∧
    ((sampleDeploy "").Run pullFails sampleState).2 = some (Error.msg "pull failed") ∧
    ((sampleDeploy "").Run pullFails sampleState).1.active "debian" = none := by
  refine ⟨rfl, by decide, by decide, rfl, by decide, by decide, by decide⟩

/-! ## `main`: theorems -/

/-- The seven discriminators of the `switch` select the action the recipe
format names; every other string makes `UnmarshalYAML` panic, and an error of
the first `unmarshal` is returned with the action untouched. -/
theorem UnmarshalYAML_dispatch (name : String) (y : Option Action) (err : Error) :
    (name ∈ ["unpack", "overlay", "run", "pack", "debootstrap", "setup-image",
        "deploy-image"] →
      (recipeActionKind name).isSome = true ∧
      UnmarshalYAML (.ok name) y = .ok (recipeActionKind name, none)) ∧
    (name ∉ ["unpack", "overlay", "run", "pack", "debootstrap", "setup-image",
        "deploy-image"] →
      UnmarshalYAML (.ok name) y = .error (Panic.unknownAction name)) ∧
    UnmarshalYAML (.error err) y = .ok (y, some err) := by
  refine ⟨?_, ?_, rfl⟩
  · intro h
    simp only [List.mem_cons, List.mem_singleton, List.not_mem_nil, or_false] at h
    rcases h with h | h | h | h | h | h | h <;> subst h <;> exact ⟨by decide, rfl⟩
  · intro h
    simp only [List.mem_cons, List.mem_singleton, List.not_mem_nil, or_false, not_or] at h
    obtain ⟨h1, h2, h3, h4, h5, h6, h7⟩ := h
    simp [UnmarshalYAML, selectAction, h1, h2, h3, h4, h5, h6, h7]

/-- C1: `ostree-deploy` and `ostree-commit` name action kinds of the recipe
format, whose types the repository declares, but `UnmarshalYAML` has no case
for them: it panics with an unknown action instead of selecting the variant. -/
theorem UnmarshalYAML_rejects_ostree_actions :
    recipeActionKind "ostree-deploy" = some Action.OstreeDeployAction ∧
    UnmarshalYAML (.ok "ostree-deploy") none =
      .error (Panic.unknownAction "ostree-deploy") ∧
    recipeActionKind "ostree-commit" = some Action.OstreeCommitAction ∧
    UnmarshalYAML (.ok "ostree-commit") none =
      .error (Panic.unknownAction "ostree-commit") := by
  refine ⟨by decide, rfl, by decide, rfl⟩

end Debos
